import Mathlib

/-!
# Verification of the Bifrost stale-while-revalidate caching connector

Shallow embedding of `src/server/services/graph.js` (the `BifrostCache` and
`PwConnector` classes) and proofs about its caching behaviour.

Modelling conventions:
* JavaScript `Map` objects become association lists (`List (String × _)`);
  `Map.set` overwrites in place or appends, `Map.delete` filters.
* Timestamps (`Date.now()`) are natural numbers of milliseconds, passed in
  explicitly as `now`.
* The single suspension point (the remote fetch) is made explicit: a step
  function receives the outcome the fetch would have (`Except String Response`)
  and the scheduling of a background task is recorded in a `pending` list,
  consumed later by the step modelling `_markAndRefreshItemAsync`.
* `process.nextTick`/bluebird coroutines interleave only at the fetch, so each
  synchronous stretch of the source is one atomic step function.
-/

namespace Bifrost

/-- A `request-promise` full response envelope (`resolveWithFullResponse: true`):
the connector stores the whole response and returns `response.body`. -/
structure Response where
  statusCode : Nat
  body : String
deriving Repr, DecidableEq

/-- One entry of `BifrostCache._backend`: `{ts: Date.now(), val}`. -/
structure CacheItem where
  ts : Nat
  val : Response
deriving Repr, DecidableEq

/-- The store `BifrostCache._backend`, a `Map` from key to `{ts, val}`. -/
abbrev Backend := List (String × CacheItem)

/-- Return shape of `BifrostCache.get`: `{val, requireRefresh}`. -/
structure CacheView where
  val : Response
  requireRefresh : Bool
deriving Repr, DecidableEq

/-- The TTL `this._CACHE_LIFETIME = 30 * 60 * 1000` — thirty minutes in milliseconds. -/
def CACHE_LIFETIME : Nat := 30 * 60 * 1000

/-- JS `Map.prototype.set`: overwrite the entry in place if the key is
present, otherwise append (insertion order preserved). -/
def mapSet {α : Type} (m : List (String × α)) (k : String) (v : α) :
    List (String × α) :=
  if (m.lookup k).isSome then
    m.map (fun p => if p.1 = k then (k, v) else p)
  else
    m ++ [(k, v)]

namespace BifrostCache

/-- Source `BifrostCache.get(key)`: `null` when the key is absent, otherwise
`{val, requireRefresh}` with `requireRefresh = (Date.now() - ts) > _CACHE_LIFETIME`. -/
def get (backend : Backend) (now : Nat) (key : String) : Option CacheView :=
  match backend.lookup key with
  | none => none
  | some item => some ⟨item.val, decide ((now - item.ts) > CACHE_LIFETIME)⟩

/-- Source `BifrostCache.isBeingRefreshed(key)`: `this._processMap.get(key) !== undefined`,
i.e. membership of the key in the process map. -/
def isBeingRefreshed (pm : List String) (key : String) : Bool :=
  decide (key ∈ pm)

/-- Source `BifrostCache.markBeingRefreshed(key, b)`: `true` adds the marker
(`Map.set(key, true)`, idempotent), `false` deletes it. -/
def markBeingRefreshed (pm : List String) (key : String) (b : Bool) :
    List String :=
  if b then (if key ∈ pm then pm else pm ++ [key])
  else pm.filter (fun x => decide (x ≠ key))

/-- Source `BifrostCache.add(key, val)`: `this._backend.set(key, {ts: Date.now(), val})`. -/
def add (backend : Backend) (now : Nat) (key : String) (v : Response) : Backend :=
  mapSet backend key ⟨now, v⟩

end BifrostCache

/-- Shared mutable state of the connector: the cache backend, the refresh
tracker (`_processMap`), and the queue of background refresh tasks already
scheduled via `process.nextTick` but not yet run. -/
structure ConnState where
  backend : Backend
  processMap : List String
  pending : List String
deriving Repr, DecidableEq

deriving instance DecidableEq for Except

/-- Outcome of one synchronous run of `_getCacheIfNeeded`: the value returned
to the caller (or the propagated fetch error), the state after the run, and
whether a synchronous fetch was issued during the run. -/
structure GetOutcome where
  result : Except String String
  state : ConnState
  didFetch : Bool
deriving DecidableEq

/-- Source `PwConnector._getCacheIfNeeded(url)` as one atomic step.  `fetchResult`
is the outcome the synchronous miss-path fetch would have; the hit paths
never consult it.  Mirrors the source:
miss → fetch, `cache.add`, return `res.body` (error propagates before `add`);
stale and not being refreshed → `_unwindMarkAndRefreshItem` (mark the flag
synchronously, schedule the background task), return the stale `val.body`;
otherwise → return `val.body` unchanged. -/
def getCacheIfNeeded (s : ConnState) (now : Nat) (url : String)
    (fetchResult : Except String Response) : GetOutcome :=
  match BifrostCache.get s.backend now url with
  | none =>
    match fetchResult with
    | .error e => ⟨.error e, s, true⟩
    | .ok r =>
      ⟨.ok r.body, { s with backend := BifrostCache.add s.backend now url r }, true⟩
  | some view =>
    if view.requireRefresh && !(BifrostCache.isBeingRefreshed s.processMap url) then
      ⟨.ok view.val.body,
        { s with
            processMap := BifrostCache.markBeingRefreshed s.processMap url true,
            pending := s.pending ++ [url] },
        false⟩
    else
      ⟨.ok view.val.body, s, false⟩

/-- Source `PwConnector._markAndRefreshItemAsync(url)` as one step: the scheduled
background task runs (it is removed from `pending`), performs the fetch, and —
exactly as in the source, which has no try/finally — on success stores the
response and clears the flag, while on failure the coroutine throws at the
`yield`, so neither `cache.add` nor `markBeingRefreshed(url, false)` runs. -/
def markAndRefreshItemAsync (s : ConnState) (now : Nat) (url : String)
    (fetchResult : Except String Response) : ConnState :=
  let s0 : ConnState := { s with pending := s.pending.erase url }
  match fetchResult with
  | .error _ => s0
  | .ok r =>
    { s0 with
        backend := BifrostCache.add s0.backend now url r,
        processMap := BifrostCache.markBeingRefreshed s0.processMap url false }

/-- The fixed upstream base URL `ROOT_URL` from the source. -/
def ROOT_URL : String := "https://psychonautwiki.org/w/api.php"

/-- The defaults `qsDefaults = {action: 'ask', format: 'json'}` (a JS object, i.e. an
insertion-ordered key/value mapping). -/
def qsDefaults : List (String × String) := [("action", "ask"), ("format", "json")]

/-- One hexadecimal digit, uppercase, as emitted by Node's percent-encoding. -/
def hexDigitChar (n : Nat) : Char :=
  if n < 10 then Char.ofNat (48 + n) else Char.ofNat (55 + n)

/-- Characters `querystring.escape` leaves unencoded: alphanumerics and
`- _ . ~ ! * ( )` and the apostrophe (U+0027). -/
def qsSafeChar (c : Char) : Bool :=
  c.isAlphanum || c = '-' || c = '_' || c = '.' || c = '~' ||
    c = '!' || c = '*' || c = '(' || c = ')' || c = Char.ofNat 39

/-- Percent-encode a single character (UTF-8 bytes, `%XX` uppercase) unless it
is in the safe set. -/
def escapeChar (c : Char) : String :=
  if qsSafeChar c then String.singleton c
  else
    String.join ((String.singleton c).toUTF8.toList.map (fun b =>
      String.mk ['%', hexDigitChar (b.toNat / 16), hexDigitChar (b.toNat % 16)]))

/-- Node `querystring.escape`. -/
def qsEscape (s : String) : String :=
  String.join (s.toList.map escapeChar)

/-- Node `querystring.encode(obj)`: `escape(k) + '=' + escape(v)` joined with `&`,
in the object's key enumeration (insertion) order. -/
def qsEncode (l : List (String × String)) : String :=
  String.intercalate "&" (l.map (fun p => qsEscape p.1 ++ "=" ++ qsEscape p.2))

/-- Lodash `_.defaults(args, dfts)`: mutates `args` in place, assigning each key of
`dfts` that `args` lacks; existing keys keep their values and their positions,
new keys are appended in the defaults' order.  The returned list is the
mutated `args` object. -/
def lodashDefaults (args dfts : List (String × String)) : List (String × String) :=
  args ++ dfts.filter (fun p => (args.lookup p.1).isNone)

/-- The cache key `get` builds: `` `${ROOT_URL}?${querystring.encode(_.defaults(args, qsDefaults))}` ``. -/
def buildKey (args : List (String × String)) : String :=
  ROOT_URL ++ "?" ++ qsEncode (lodashDefaults args qsDefaults)

/-- State of one `PwConnector` instance: the shared connector state plus the
instance's `DataLoader` promise cache (`load` memoizes the eventual result of
each key for the loader's lifetime; the source never calls `clear`). -/
structure PwState where
  conn : ConnState
  memo : List (String × Except String String)
deriving DecidableEq

/-- Outcome of one `PwConnector.get(args)` call: the result handed to the
caller, the state afterwards, the caller's `args` object after the call
(`_.defaults` mutates it), whether a `BifrostCache` lookup was performed
(false when the `DataLoader` replays a memoized result), and whether a
synchronous fetch was issued. -/
structure PwGetOutcome where
  result : Except String String
  state : PwState
  mutatedArgs : List (String × String)
  didLookupCache : Bool
  didFetch : Bool
deriving DecidableEq

/-- Source `PwConnector.get(args)`: merge `args` with `qsDefaults` (mutating `args`),
build the key, and `this._loader.load(key)`.  `DataLoader.load` returns the
memoized promise when the key was loaded before (whether or not it has
resolved) and otherwise runs `_loadUrl` → `_getCacheIfNeeded` (whose try/catch
rethrows unchanged) and memoizes its result. -/
def PwConnector.get (st : PwState) (now : Nat) (args : List (String × String))
    (fetchResult : Except String Response) : PwGetOutcome :=
  let mutated := lodashDefaults args qsDefaults
  let key := ROOT_URL ++ "?" ++ qsEncode mutated
  match st.memo.lookup key with
  | some r => ⟨r, st, mutated, false, false⟩
  | none =>
    let o := getCacheIfNeeded st.conn now key fetchResult
    ⟨o.result, ⟨o.state, mapSet st.memo key o.result⟩, mutated, true, o.didFetch⟩

/-- States reachable from the empty initial state by interleaving reads
(`_getCacheIfNeeded`) and completions of scheduled background refreshes. -/
inductive Reachable : ConnState → Prop
  | init : Reachable ⟨[], [], []⟩
  | get {s : ConnState} (now : Nat) (url : String) (fr : Except String Response) :
      Reachable s → Reachable (getCacheIfNeeded s now url fr).state
  | refresh {s : ConnState} (now : Nat) (url : String) (fr : Except String Response) :
      Reachable s → url ∈ s.pending → Reachable (markAndRefreshItemAsync s now url fr)

/-- Runs `n` further reads of the same url within the same instant, each running
`_getCacheIfNeeded` with the same prospective fetch outcome. -/
def runGets (now : Nat) (url : String) (fr : Except String Response) :
    Nat → ConnState → ConnState
  | 0, s => s
  | n + 1, s => runGets now url fr n (getCacheIfNeeded s now url fr).state

/-- The single-flight invariant: per key at most one scheduled background
refresh, and every scheduled refresh is recorded in the tracker. -/
def SingleFlight (s : ConnState) : Prop :=
  ∀ k, List.count k s.pending ≤ 1 ∧ (k ∈ s.pending → k ∈ s.processMap)

/- ### Association-list helper lemmas -/

lemma lookup_cons {α : Type} (k a : String) (v : α) (t : List (String × α)) :
    List.lookup k ((a, v) :: t) = if k = a then some v else t.lookup k := by
  cases hb : k == a
  · have hne : k ≠ a := by simpa using hb
    simp [List.lookup, hb, hne]
  · have heq : k = a := by simpa using hb
    simp [List.lookup, hb, heq]

lemma lookup_append_some {α : Type} (l1 l2 : List (String × α)) (k : String) (v : α)
    (h : l1.lookup k = some v) : (l1 ++ l2).lookup k = some v := by
  induction l1 with
  | nil => simp [List.lookup] at h
  | cons p t ih =>
    rcases p with ⟨a, b⟩
    rw [lookup_cons] at h
    rw [List.cons_append, lookup_cons]
    by_cases hk : k = a
    · simpa [hk] using h
    · rw [if_neg hk] at h ⊢; exact ih h

lemma lookup_append_none {α : Type} (l1 l2 : List (String × α)) (k : String)
    (h : l1.lookup k = none) : (l1 ++ l2).lookup k = l2.lookup k := by
  induction l1 with
  | nil => simp
  | cons p t ih =>
    rcases p with ⟨a, b⟩
    rw [lookup_cons] at h
    rw [List.cons_append, lookup_cons]
    by_cases hk : k = a
    · simp [hk] at h
    · rw [if_neg hk] at h ⊢; exact ih h

lemma lookup_map_overwrite {α : Type} (m : List (String × α)) (k : String) (v : α)
    (h : (m.lookup k).isSome) :
    (m.map (fun p => if p.1 = k then (k, v) else p)).lookup k = some v := by
  induction m with
  | nil => simp [List.lookup] at h
  | cons p t ih =>
    rcases p with ⟨a, b⟩
    rw [lookup_cons] at h
    by_cases hk : k = a
    · subst hk
      simp [lookup_cons]
    · rw [if_neg hk] at h
      have ha : ¬ a = k := fun hh => hk hh.symm
      simpa [List.map_cons, ha, lookup_cons, hk] using ih h

lemma lookup_mapSet_self {α : Type} (m : List (String × α)) (k : String) (v : α) :
    (mapSet m k v).lookup k = some v := by
  unfold mapSet
  by_cases h : (m.lookup k).isSome
  · rw [if_pos h]
    exact lookup_map_overwrite m k v h
  · rw [if_neg h]
    have hnone : m.lookup k = none := by
      cases hm : m.lookup k
      · rfl
      · rw [hm] at h; simp at h
    rw [lookup_append_none m _ k hnone, lookup_cons, if_pos rfl]

lemma lookup_mapSet_ne {α : Type} (m : List (String × α)) (k k' : String) (v : α)
    (hne : k' ≠ k) : (mapSet m k v).lookup k' = m.lookup k' := by
  unfold mapSet
  by_cases h : (m.lookup k).isSome
  · rw [if_pos h]
    clear h
    induction m with
    | nil => simp
    | cons p t ih =>
      rcases p with ⟨a, b⟩
      by_cases hk : a = k
      · subst hk
        have hk' : ¬ k' = a := hne
        simp [List.map_cons, lookup_cons, hk', ih]
      · simp [List.map_cons, hk, lookup_cons, ih]
  · rw [if_neg h]
    cases hm : m.lookup k'
    · rw [lookup_append_none m _ k' hm, lookup_cons, if_neg hne]
      simp [List.lookup]
    · exact lookup_append_some m _ k' _ hm

/- ### Refresh-tracker helper lemmas -/

lemma isBeingRefreshed_iff (pm : List String) (k : String) :
    BifrostCache.isBeingRefreshed pm k = true ↔ k ∈ pm := by
  simp [BifrostCache.isBeingRefreshed]

lemma mem_markTrue_self (pm : List String) (key : String) :
    key ∈ BifrostCache.markBeingRefreshed pm key true := by
  unfold BifrostCache.markBeingRefreshed
  by_cases h : key ∈ pm <;> simp [h]

lemma mem_markTrue_of_mem (pm : List String) (key k : String) (h : k ∈ pm) :
    k ∈ BifrostCache.markBeingRefreshed pm key true := by
  unfold BifrostCache.markBeingRefreshed
  by_cases hm : key ∈ pm <;> simp [hm, h]

lemma mem_markFalse_iff (pm : List String) (key k : String) :
    k ∈ BifrostCache.markBeingRefreshed pm key false ↔ k ∈ pm ∧ k ≠ key := by
  simp [BifrostCache.markBeingRefreshed, List.mem_filter]

/- ### The single-flight invariant is preserved by every step -/

lemma singleFlight_get (s : ConnState) (now : Nat) (url : String)
    (fr : Except String Response) (h : SingleFlight s) :
    SingleFlight (getCacheIfNeeded s now url fr).state := by
  unfold getCacheIfNeeded
  cases hc : BifrostCache.get s.backend now url with
  | none =>
    cases fr with
    | error e => exact h
    | ok r => intro k; exact h k
  | some view =>
    dsimp only
    by_cases hif :
        (view.requireRefresh && !(BifrostCache.isBeingRefreshed s.processMap url)) = true
    · rw [if_pos hif]
      have hflag : url ∉ s.processMap := by
        have := (Bool.and_eq_true _ _).mp hif |>.2
        simp only [Bool.not_eq_true', ← Bool.not_eq_true] at this
        exact fun hmem => this ((isBeingRefreshed_iff _ _).mpr hmem)
      have hnotPending : url ∉ s.pending := fun hp => hflag ((h url).2 hp)
      have hcnt0 : List.count url s.pending = 0 := List.count_eq_zero.mpr hnotPending
      intro k
      constructor
      · rw [List.count_append, List.count_singleton]
        by_cases hk : k = url
        · subst hk
          simp [hcnt0]
        · have : (url == k) = false := by simpa using fun hh => hk hh.symm
          rw [this]
          simpa using (h k).1
      · intro hk
        rcases List.mem_append.mp hk with hk | hk
        · exact mem_markTrue_of_mem _ _ _ ((h k).2 hk)
        · have : k = url := by simpa using hk
          subst this
          exact mem_markTrue_self _ _
    · rw [if_neg hif]
      exact h

lemma singleFlight_refresh (s : ConnState) (now : Nat) (url : String)
    (fr : Except String Response) (h : SingleFlight s) :
    SingleFlight (markAndRefreshItemAsync s now url fr) := by
  have hcount : ∀ k, List.count k (s.pending.erase url) ≤ 1 := by
    intro k
    calc List.count k (s.pending.erase url)
        ≤ List.count k s.pending := by
          rw [List.count_erase]
          exact Nat.sub_le _ _
      _ ≤ 1 := (h k).1
  have hurlGone : url ∉ s.pending.erase url := by
    intro hmem
    have h1 : 0 < List.count url (s.pending.erase url) :=
      List.count_pos_iff.mpr hmem
    rw [List.count_erase] at h1
    simp only [beq_self_eq_true, if_pos] at h1
    have := (h url).1
    omega
  unfold markAndRefreshItemAsync
  cases fr with
  | error e =>
    intro k
    exact ⟨hcount k, fun hk => (h k).2 (List.mem_of_mem_erase hk)⟩
  | ok r =>
    intro k
    refine ⟨hcount k, fun hk => ?_⟩
    have hne : k ≠ url := fun hh => hurlGone (hh ▸ hk)
    exact (mem_markFalse_iff _ _ _).mpr ⟨(h k).2 (List.mem_of_mem_erase hk), hne⟩

lemma reachable_singleFlight {s : ConnState} (h : Reachable s) : SingleFlight s := by
  induction h with
  | init => intro k; simp [SingleFlight]
  | get now url fr _ ih => exact singleFlight_get _ now url fr ih
  | refresh now url fr _ _ ih => exact singleFlight_refresh _ now url fr ih

/- ### Branch characterizations of `_getCacheIfNeeded` -/

lemma getCacheIfNeeded_miss_error (s : ConnState) (now : Nat) (url : String)
    (e : String) (hc : BifrostCache.get s.backend now url = none) :
    getCacheIfNeeded s now url (.error e) = ⟨.error e, s, true⟩ := by
  unfold getCacheIfNeeded
  rw [hc]

lemma getCacheIfNeeded_miss_ok (s : ConnState) (now : Nat) (url : String)
    (r : Response) (hc : BifrostCache.get s.backend now url = none) :
    getCacheIfNeeded s now url (.ok r) =
      ⟨.ok r.body, { s with backend := BifrostCache.add s.backend now url r }, true⟩ := by
  unfold getCacheIfNeeded
  rw [hc]

lemma getCacheIfNeeded_hit_noSchedule (s : ConnState) (now : Nat) (url : String)
    (view : CacheView) (fr : Except String Response)
    (hc : BifrostCache.get s.backend now url = some view)
    (hif : (view.requireRefresh && !(BifrostCache.isBeingRefreshed s.processMap url)) = false) :
    getCacheIfNeeded s now url fr = ⟨.ok view.val.body, s, false⟩ := by
  unfold getCacheIfNeeded
  rw [hc]
  dsimp only
  rw [hif]
  simp

lemma getCacheIfNeeded_hit_schedule (s : ConnState) (now : Nat) (url : String)
    (view : CacheView) (fr : Except String Response)
    (hc : BifrostCache.get s.backend now url = some view)
    (hr : view.requireRefresh = true) (hnm : url ∉ s.processMap) :
    getCacheIfNeeded s now url fr =
      ⟨.ok view.val.body,
        { s with
            processMap := BifrostCache.markBeingRefreshed s.processMap url true,
            pending := s.pending ++ [url] },
        false⟩ := by
  unfold getCacheIfNeeded
  rw [hc]
  dsimp only
  have hb : BifrostCache.isBeingRefreshed s.processMap url = false := by
    simp [BifrostCache.isBeingRefreshed, hnm]
  rw [hr, hb]
  simp

lemma runGets_flagged_fixed (now : Nat) (url : String) (fr : Except String Response)
    (s : ConnState) (view : CacheView)
    (hc : BifrostCache.get s.backend now url = some view)
    (hmem : url ∈ s.processMap) :
    ∀ n, runGets now url fr n s = s := by
  intro n
  induction n with
  | zero => rfl
  | succ m ih =>
    have hstep : getCacheIfNeeded s now url fr = ⟨.ok view.val.body, s, false⟩ :=
      getCacheIfNeeded_hit_noSchedule s now url view fr hc
        (by simp [BifrostCache.isBeingRefreshed, hmem])
    show runGets now url fr m (getCacheIfNeeded s now url fr).state = s
    rw [hstep]
    exact ih

/- ### `_.defaults(args, qsDefaults)` lookup lemmas -/

lemma lodashDefaults_lookup_action (args : List (String × String)) :
    (lodashDefaults args qsDefaults).lookup "action"
      = some ((args.lookup "action").getD "ask") := by
  cases ha : args.lookup "action" with
  | some v => simpa using lookup_append_some _ _ _ _ ha
  | none =>
    unfold lodashDefaults
    rw [lookup_append_none _ _ _ ha]
    cases hf : args.lookup "format" with
    | none =>
      have hfil : List.filter (fun p => (args.lookup p.1).isNone) qsDefaults
          = [("action", "ask"), ("format", "json")] := by
        simp [qsDefaults, List.filter, ha, hf]
      rw [hfil, lookup_cons, if_pos rfl]
      rfl
    | some w =>
      have hfil : List.filter (fun p => (args.lookup p.1).isNone) qsDefaults
          = [("action", "ask")] := by
        simp [qsDefaults, List.filter, ha, hf]
      rw [hfil, lookup_cons, if_pos rfl]
      rfl

lemma lodashDefaults_lookup_format (args : List (String × String)) :
    (lodashDefaults args qsDefaults).lookup "format"
      = some ((args.lookup "format").getD "json") := by
  cases hf : args.lookup "format" with
  | some v => simpa using lookup_append_some _ _ _ _ hf
  | none =>
    unfold lodashDefaults
    rw [lookup_append_none _ _ _ hf]
    cases ha : args.lookup "action" with
    | none =>
      have hfil : List.filter (fun p => (args.lookup p.1).isNone) qsDefaults
          = [("action", "ask"), ("format", "json")] := by
        simp [qsDefaults, List.filter, ha, hf]
      rw [hfil, lookup_cons, if_neg (by decide), lookup_cons, if_pos rfl]
      rfl
    | some w =>
      have hfil : List.filter (fun p => (args.lookup p.1).isNone) qsDefaults
          = [("format", "json")] := by
        simp [qsDefaults, List.filter, ha, hf]
      rw [hfil, lookup_cons, if_pos rfl]
      rfl

lemma lodashDefaults_lookup_other (args : List (String × String)) (k : String)
    (h1 : k ≠ "action") (h2 : k ≠ "format") :
    (lodashDefaults args qsDefaults).lookup k = args.lookup k := by
  cases h : args.lookup k with
  | some v => exact lookup_append_some _ _ _ _ h
  | none =>
    unfold lodashDefaults
    rw [lookup_append_none _ _ _ h]
    cases ha : args.lookup "action" <;> cases hf : args.lookup "format"
    all_goals
      first
      | (have hfil : List.filter (fun p => (args.lookup p.1).isNone) qsDefaults
            = [("action", "ask"), ("format", "json")] := by
            simp [qsDefaults, List.filter, ha, hf]
         rw [hfil, lookup_cons, if_neg h1, lookup_cons, if_neg h2]
         rfl)
      | (have hfil : List.filter (fun p => (args.lookup p.1).isNone) qsDefaults
            = [("action", "ask")] := by
            simp [qsDefaults, List.filter, ha, hf]
         rw [hfil, lookup_cons, if_neg h1]
         rfl)
      | (have hfil : List.filter (fun p => (args.lookup p.1).isNone) qsDefaults
            = [("format", "json")] := by
            simp [qsDefaults, List.filter, ha, hf]
         rw [hfil, lookup_cons, if_neg h2]
         rfl)
      | (have hfil : List.filter (fun p => (args.lookup p.1).isNone) qsDefaults
            = [] := by
            simp [qsDefaults, List.filter, ha, hf]
         rw [hfil]
         rfl)

/- ### `PwConnector.get` unfolding lemmas -/

lemma pwGet_memo_hit (st : PwState) (now : Nat) (args : List (String × String))
    (fr : Except String Response) (r : Except String String)
    (h : st.memo.lookup (buildKey args) = some r) :
    PwConnector.get st now args fr
      = ⟨r, st, lodashDefaults args qsDefaults, false, false⟩ := by
  unfold buildKey at h
  unfold PwConnector.get
  dsimp only
  rw [h]

lemma pwGet_memo_miss (st : PwState) (now : Nat) (args : List (String × String))
    (fr : Except String Response)
    (h : st.memo.lookup (buildKey args) = none) :
    PwConnector.get st now args fr
      = ⟨(getCacheIfNeeded st.conn now (buildKey args) fr).result,
          ⟨(getCacheIfNeeded st.conn now (buildKey args) fr).state,
            mapSet st.memo (buildKey args)
              (getCacheIfNeeded st.conn now (buildKey args) fr).result⟩,
          lodashDefaults args qsDefaults, true,
          (getCacheIfNeeded st.conn now (buildKey args) fr).didFetch⟩ := by
  unfold buildKey at h
  unfold PwConnector.get
  dsimp only
  rw [h]
  rfl

lemma pwGet_mutatedArgs (st : PwState) (now : Nat) (args : List (String × String))
    (fr : Except String Response) :
    (PwConnector.get st now args fr).mutatedArgs = lodashDefaults args qsDefaults := by
  cases h : st.memo.lookup (buildKey args) with
  | none => rw [pwGet_memo_miss st now args fr h]
  | some r => rw [pwGet_memo_hit st now args fr r h]

/- ### Claim theorems -/

/-- C7: `BifrostCache.get` returns the entry with `requireRefresh` true exactly
when `now - insertedAt` is strictly greater than 30 minutes (1,800,000 ms),
returns `none` exactly when the key is not stored, and an entry read exactly at
the 30-minute boundary is still fresh. -/
theorem cache_get_ttl_boundary (backend : Backend) (now : Nat) (key : String)
    (item : CacheItem) :
    (BifrostCache.get backend now key = none ↔ backend.lookup key = none) ∧
    (backend.lookup key = some item →
      BifrostCache.get backend now key
        = some ⟨item.val, decide ((now - item.ts) > CACHE_LIFETIME)⟩) ∧
    (backend.lookup key = some item →
      BifrostCache.get backend (item.ts + CACHE_LIFETIME) key = some ⟨item.val, false⟩) ∧
    (backend.lookup key = some item →
      BifrostCache.get backend (item.ts + CACHE_LIFETIME + 1) key = some ⟨item.val, true⟩) := by
  refine ⟨?_, ?_, ?_, ?_⟩
  · unfold BifrostCache.get
    cases h : backend.lookup key <;> simp
  · intro h
    unfold BifrostCache.get
    rw [h]
  · intro h
    unfold BifrostCache.get
    rw [h]
    simp
  · intro h
    unfold BifrostCache.get
    rw [h]
    have harith : item.ts + CACHE_LIFETIME + 1 - item.ts = CACHE_LIFETIME + 1 := by omega
    simp [harith]

/-- Witness for C7 at a concrete store: an entry inserted at t=100 is fresh
when read exactly 30 minutes later and stale one millisecond after that. -/
theorem cache_get_ttl_boundary_witness :
    ([("k", (⟨100, ⟨200, "b"⟩⟩ : CacheItem))].lookup "k" = some ⟨100, ⟨200, "b"⟩⟩) ∧
    BifrostCache.get [("k", ⟨100, ⟨200, "b"⟩⟩)] (100 + CACHE_LIFETIME) "k"
      = some ⟨⟨200, "b"⟩, false⟩ ∧
    BifrostCache.get [("k", ⟨100, ⟨200, "b"⟩⟩)] (100 + CACHE_LIFETIME + 1) "k"
      = some ⟨⟨200, "b"⟩, true⟩ :=
  ⟨by decide,
   (cache_get_ttl_boundary [("k", ⟨100, ⟨200, "b"⟩⟩)] 0 "k" ⟨100, ⟨200, "b"⟩⟩).2.2.1 (by decide),
   (cache_get_ttl_boundary [("k", ⟨100, ⟨200, "b"⟩⟩)] 0 "k" ⟨100, ⟨200, "b"⟩⟩).2.2.2 (by decide)⟩

/-- C9: a fresh cache hit returns the cached body and has no side effects at
all — the state (cache, tracker, scheduled tasks) is returned unchanged and no
fetch is issued, whatever outcome a fetch would have had. -/
theorem fresh_hit_no_side_effects (s : ConnState) (now : Nat) (url : String)
    (fr : Except String Response) (view : CacheView)
    (hc : BifrostCache.get s.backend now url = some view)
    (hfresh : view.requireRefresh = false) :
    getCacheIfNeeded s now url fr = ⟨.ok view.val.body, s, false⟩ :=
  getCacheIfNeeded_hit_noSchedule s now url view fr hc (by simp [hfresh])

/-- Witness for C9: a concrete fresh hit leaves the whole state unchanged. -/
theorem fresh_hit_no_side_effects_witness :
    (BifrostCache.get [("k", ⟨0, ⟨200, "b"⟩⟩)] 5 "k" = some ⟨⟨200, "b"⟩, false⟩) ∧
    getCacheIfNeeded ⟨[("k", ⟨0, ⟨200, "b"⟩⟩)], [], []⟩ 5 "k" (.error "down")
      = ⟨.ok "b", ⟨[("k", ⟨0, ⟨200, "b"⟩⟩)], [], []⟩, false⟩ :=
  ⟨by decide,
   fresh_hit_no_side_effects ⟨[("k", ⟨0, ⟨200, "b"⟩⟩)], [], []⟩ 5 "k" (.error "down")
     ⟨⟨200, "b"⟩, false⟩ (by decide) rfl⟩

/-- C8: a stale hit on a key already marked as being refreshed returns the
stale cached body and changes nothing — no new refresh is scheduled, the
tracker and the cache are untouched. -/
theorem stale_hit_flagged_no_op (s : ConnState) (now : Nat) (url : String)
    (fr : Except String Response) (view : CacheView)
    (hc : BifrostCache.get s.backend now url = some view)
    (_hstale : view.requireRefresh = true)
    (hmem : url ∈ s.processMap) :
    getCacheIfNeeded s now url fr = ⟨.ok view.val.body, s, false⟩ :=
  getCacheIfNeeded_hit_noSchedule s now url view fr hc
    (by simp [BifrostCache.isBeingRefreshed, hmem])

/-- Witness for C8: a concrete stale read under an in-flight refresh is a
pure read. -/
theorem stale_hit_flagged_no_op_witness :
    (BifrostCache.get [("k", ⟨0, ⟨200, "b"⟩⟩)] 2000000 "k" = some ⟨⟨200, "b"⟩, true⟩) ∧
    ("k" ∈ ["k"]) ∧
    getCacheIfNeeded ⟨[("k", ⟨0, ⟨200, "b"⟩⟩)], ["k"], ["k"]⟩ 2000000 "k" (.ok ⟨200, "new"⟩)
      = ⟨.ok "b", ⟨[("k", ⟨0, ⟨200, "b"⟩⟩)], ["k"], ["k"]⟩, false⟩ :=
  ⟨by decide, by decide,
   stale_hit_flagged_no_op ⟨[("k", ⟨0, ⟨200, "b"⟩⟩)], ["k"], ["k"]⟩ 2000000 "k"
     (.ok ⟨200, "new"⟩) ⟨⟨200, "b"⟩, true⟩ (by decide) rfl (by decide)⟩

/-- C6: a stale hit with no refresh in progress marks the key as being
refreshed within the same synchronous step, schedules the background fetch for
a later slice (it is queued, not executed: no fetch happens in this step and
the cache is unchanged), and returns the previously cached stale body — for
every possible outcome of the scheduled fetch, so the caller never waits on it. -/
theorem stale_hit_schedules_background_refresh (s : ConnState) (now : Nat)
    (url : String) (fr : Except String Response) (view : CacheView)
    (hc : BifrostCache.get s.backend now url = some view)
    (hstale : view.requireRefresh = true)
    (hnm : url ∉ s.processMap) :
    (getCacheIfNeeded s now url fr).result = .ok view.val.body ∧
    (getCacheIfNeeded s now url fr).didFetch = false ∧
    (getCacheIfNeeded s now url fr).state.backend = s.backend ∧
    BifrostCache.isBeingRefreshed (getCacheIfNeeded s now url fr).state.processMap url
      = true ∧
    (getCacheIfNeeded s now url fr).state.pending = s.pending ++ [url] := by
  rw [getCacheIfNeeded_hit_schedule s now url view fr hc hstale hnm]
  refine ⟨rfl, rfl, rfl, ?_, rfl⟩
  simp only [BifrostCache.isBeingRefreshed, decide_eq_true_eq]
  exact mem_markTrue_self _ _

/-- Witness for C6 at a concrete stale entry. -/
theorem stale_hit_schedules_background_refresh_witness :
    (BifrostCache.get [("k", ⟨0, ⟨200, "b"⟩⟩)] 2000000 "k" = some ⟨⟨200, "b"⟩, true⟩) ∧
    ((getCacheIfNeeded ⟨[("k", ⟨0, ⟨200, "b"⟩⟩)], [], []⟩ 2000000 "k" (.error "down")).result
        = .ok "b" ∧
      (getCacheIfNeeded ⟨[("k", ⟨0, ⟨200, "b"⟩⟩)], [], []⟩ 2000000 "k" (.error "down")).didFetch
        = false ∧
      (getCacheIfNeeded ⟨[("k", ⟨0, ⟨200, "b"⟩⟩)], [], []⟩ 2000000 "k"
          (.error "down")).state.backend = [("k", ⟨0, ⟨200, "b"⟩⟩)] ∧
      BifrostCache.isBeingRefreshed
        (getCacheIfNeeded ⟨[("k", ⟨0, ⟨200, "b"⟩⟩)], [], []⟩ 2000000 "k"
          (.error "down")).state.processMap "k" = true ∧
      (getCacheIfNeeded ⟨[("k", ⟨0, ⟨200, "b"⟩⟩)], [], []⟩ 2000000 "k"
          (.error "down")).state.pending = [] ++ ["k"]) :=
  ⟨by decide,
   stale_hit_schedules_background_refresh ⟨[("k", ⟨0, ⟨200, "b"⟩⟩)], [], []⟩ 2000000 "k"
     (.error "down") ⟨⟨200, "b"⟩, true⟩ (by decide) rfl (by decide)⟩

/-- C5: on a cache miss `get` fetches synchronously; a failed fetch propagates
the error and leaves the whole state untouched, a successful fetch stores the
envelope under the key with the current timestamp (touching no other entry,
nor the tracker or task queue) and returns the response body. -/
theorem miss_path_fetch_and_store (s : ConnState) (now : Nat) (url : String)
    (e : String) (r : Response)
    (hc : BifrostCache.get s.backend now url = none) :
    getCacheIfNeeded s now url (.error e) = ⟨.error e, s, true⟩ ∧
    (getCacheIfNeeded s now url (.ok r)).result = .ok r.body ∧
    (getCacheIfNeeded s now url (.ok r)).didFetch = true ∧
    (getCacheIfNeeded s now url (.ok r)).state.processMap = s.processMap ∧
    (getCacheIfNeeded s now url (.ok r)).state.pending = s.pending ∧
    (getCacheIfNeeded s now url (.ok r)).state.backend.lookup url = some ⟨now, r⟩ ∧
    (∀ k, k ≠ url →
      (getCacheIfNeeded s now url (.ok r)).state.backend.lookup k = s.backend.lookup k) := by
  refine ⟨getCacheIfNeeded_miss_error s now url e hc, ?_⟩
  rw [getCacheIfNeeded_miss_ok s now url r hc]
  refine ⟨rfl, rfl, rfl, rfl, ?_, ?_⟩
  · exact lookup_mapSet_self _ _ _
  · intro k hk
    exact lookup_mapSet_ne _ _ _ _ hk

/-- Witness for C5 on an empty cache. -/
theorem miss_path_fetch_and_store_witness :
    (BifrostCache.get ([] : Backend) 7 "k" = none) ∧
    getCacheIfNeeded ⟨[], [], []⟩ 7 "k" (.error "down") = ⟨.error "down", ⟨[], [], []⟩, true⟩ ∧
    (getCacheIfNeeded ⟨[], [], []⟩ 7 "k" (.ok ⟨200, "b"⟩)).result = .ok "b" ∧
    (getCacheIfNeeded ⟨[], [], []⟩ 7 "k"
        (.ok ⟨200, "b"⟩)).state.backend.lookup "k" = some ⟨7, ⟨200, "b"⟩⟩ :=
  ⟨by decide,
   (miss_path_fetch_and_store ⟨[], [], []⟩ 7 "k" "down" ⟨200, "b"⟩ (by decide)).1,
   (miss_path_fetch_and_store ⟨[], [], []⟩ 7 "k" "down" ⟨200, "b"⟩ (by decide)).2.1,
   (miss_path_fetch_and_store ⟨[], [], []⟩ 7 "k" "down" ⟨200, "b"⟩ (by decide)).2.2.2.2.2.1⟩

/-- C2: single-flight. In every reachable state at most one background refresh
is outstanding per key (and the tracker, a map, holds at most one marker per
key by construction); moreover when a stale read finds the key unflagged, that
very read — within its own synchronous step — sets the flag, schedules exactly
one background fetch without performing any fetch itself, and every later
stale read of the same instant observes the flag and changes nothing, so `n`
further reads still leave exactly one scheduled fetch. -/
theorem single_flight_per_key :
    (∀ s, Reachable s → ∀ k, List.count k s.pending ≤ 1) ∧
    (∀ (s : ConnState) (now : Nat) (url : String) (fr : Except String Response)
        (view : CacheView) (n : Nat),
      BifrostCache.get s.backend now url = some view →
      view.requireRefresh = true →
      url ∉ s.processMap →
      BifrostCache.isBeingRefreshed
          (getCacheIfNeeded s now url fr).state.processMap url = true ∧
      (getCacheIfNeeded s now url fr).didFetch = false ∧
      List.count url (getCacheIfNeeded s now url fr).state.pending
        = List.count url s.pending + 1 ∧
      runGets now url fr n (getCacheIfNeeded s now url fr).state
        = (getCacheIfNeeded s now url fr).state) := by
  constructor
  · intro s hs k
    exact (reachable_singleFlight hs k).1
  · intro s now url fr view n hc hr hnm
    have hstep := getCacheIfNeeded_hit_schedule s now url view fr hc hr hnm
    rw [hstep]
    refine ⟨?_, rfl, ?_, ?_⟩
    · simp only [BifrostCache.isBeingRefreshed, decide_eq_true_eq]
      exact mem_markTrue_self _ _
    · rw [List.count_append, List.count_singleton]
      simp
    · exact runGets_flagged_fixed now url fr
        ⟨s.backend, BifrostCache.markBeingRefreshed s.processMap url true,
          s.pending ++ [url]⟩ view hc (mem_markTrue_self _ _) n

/-- Witness for C2: the empty state is reachable with no outstanding refresh,
and on a concrete stale, unflagged entry one read schedules exactly one
background fetch while three further reads change nothing. -/
theorem single_flight_per_key_witness :
    (List.count "k" (⟨[], [], []⟩ : ConnState).pending ≤ 1) ∧
    (BifrostCache.get [("k", ⟨0, ⟨200, "old"⟩⟩)] 2000000 "k" = some ⟨⟨200, "old"⟩, true⟩) ∧
    ("k" ∉ (⟨[("k", ⟨0, ⟨200, "old"⟩⟩)], [], []⟩ : ConnState).processMap) ∧
    (BifrostCache.isBeingRefreshed
        (getCacheIfNeeded ⟨[("k", ⟨0, ⟨200, "old"⟩⟩)], [], []⟩ 2000000 "k"
          (.ok ⟨200, "new"⟩)).state.processMap "k" = true ∧
      (getCacheIfNeeded ⟨[("k", ⟨0, ⟨200, "old"⟩⟩)], [], []⟩ 2000000 "k"
          (.ok ⟨200, "new"⟩)).didFetch = false ∧
      List.count "k"
          (getCacheIfNeeded ⟨[("k", ⟨0, ⟨200, "old"⟩⟩)], [], []⟩ 2000000 "k"
            (.ok ⟨200, "new"⟩)).state.pending
        = List.count "k" (⟨[("k", ⟨0, ⟨200, "old"⟩⟩)], [], []⟩ : ConnState).pending + 1 ∧
      runGets 2000000 "k" (.ok ⟨200, "new"⟩) 3
          (getCacheIfNeeded ⟨[("k", ⟨0, ⟨200, "old"⟩⟩)], [], []⟩ 2000000 "k"
            (.ok ⟨200, "new"⟩)).state
        = (getCacheIfNeeded ⟨[("k", ⟨0, ⟨200, "old"⟩⟩)], [], []⟩ 2000000 "k"
            (.ok ⟨200, "new"⟩)).state) :=
  ⟨single_flight_per_key.1 ⟨[], [], []⟩ Reachable.init "k",
   by decide,
   by decide,
   single_flight_per_key.2 ⟨[("k", ⟨0, ⟨200, "old"⟩⟩)], [], []⟩ 2000000 "k"
     (.ok ⟨200, "new"⟩) ⟨⟨200, "old"⟩, true⟩ 3 (by decide) rfl (by decide)⟩

/-- C1 (code bug): `_markAndRefreshItemAsync` has no try/finally around the
fetch, so while a successful background refresh does clear the flag, a failing
one throws at the `yield` and never reaches `markBeingRefreshed(url, false)`:
starting from a stale entry whose refresh was scheduled and fails, the key
stays marked as being refreshed even though no task is left, and the next
stale read (here much later, at t=4,000,000 ms) returns the old value and
schedules no new refresh attempt — the key's refresh slot is deadlocked. -/
theorem failed_refresh_leaves_flag_set :
    ((markAndRefreshItemAsync ⟨[("k", ⟨0, ⟨200, "old"⟩⟩)], ["k"], ["k"]⟩ 2000000 "k"
        (.ok ⟨200, "new"⟩)).processMap = []) ∧
    ((markAndRefreshItemAsync ⟨[("k", ⟨0, ⟨200, "old"⟩⟩)], ["k"], ["k"]⟩ 2000000 "k"
        (.error "fetch failed")).processMap = ["k"]) ∧
    ((markAndRefreshItemAsync ⟨[("k", ⟨0, ⟨200, "old"⟩⟩)], ["k"], ["k"]⟩ 2000000 "k"
        (.error "fetch failed")).pending = []) ∧
    (getCacheIfNeeded
        (markAndRefreshItemAsync ⟨[("k", ⟨0, ⟨200, "old"⟩⟩)], ["k"], ["k"]⟩ 2000000 "k"
          (.error "fetch failed"))
        4000000 "k" (.ok ⟨200, "new2"⟩)
      = ⟨.ok "old",
          markAndRefreshItemAsync ⟨[("k", ⟨0, ⟨200, "old"⟩⟩)], ["k"], ["k"]⟩ 2000000 "k"
            (.error "fetch failed"),
          false⟩) := by
  decide

/-- C3 (counterexample): the `DataLoader` promise cache outlives the scheduling
slice.  Here an earlier `get` for the default parameters has already resolved
to `"old"` (it is memoized) and the shared cache meanwhile holds a fresh entry
with body `"new"`; the claim says the later `get` performs a fresh CacheStore
lookup (which would yield `"new"`), but the code replays the memoized `"old"`
and never consults the cache. -/
theorem loader_replays_after_resolution :
    ((PwConnector.get
        ⟨⟨[(buildKey [], ⟨0, ⟨200, "new"⟩⟩)], [], []⟩, [(buildKey [], .ok "old")]⟩
        5 [] (.error "unused")).result = .ok "old") ∧
    ((PwConnector.get
        ⟨⟨[(buildKey [], ⟨0, ⟨200, "new"⟩⟩)], [], []⟩, [(buildKey [], .ok "old")]⟩
        5 [] (.error "unused")).didLookupCache = false) ∧
    ((getCacheIfNeeded ⟨[(buildKey [], ⟨0, ⟨200, "new"⟩⟩)], [], []⟩ 5 (buildKey [])
        (.error "unused")).result = .ok "new") := by
  decide

/-- C3 (amended): within one connector instance, a `get` for a key the loader
has already started or finished resolving returns that same memoized result
with no new CacheStore lookup and no fetch — so concurrent callers in one
slice share one resolution, but the memo persists for the instance's lifetime
and a later `get` replays it instead of performing a fresh CacheStore lookup;
a fresh lookup happens exactly when the key is not in the loader cache, and
its result is then memoized. -/
theorem loader_memoizes_per_instance :
    (∀ (st : PwState) (now : Nat) (args : List (String × String))
        (fr : Except String Response) (r : Except String String),
      st.memo.lookup (buildKey args) = some r →
      PwConnector.get st now args fr
        = ⟨r, st, lodashDefaults args qsDefaults, false, false⟩) ∧
    (∀ (st : PwState) (now : Nat) (args : List (String × String))
        (fr : Except String Response),
      st.memo.lookup (buildKey args) = none →
      (PwConnector.get st now args fr).result
          = (getCacheIfNeeded st.conn now (buildKey args) fr).result ∧
      (PwConnector.get st now args fr).didLookupCache = true ∧
      (PwConnector.get st now args fr).state.memo.lookup (buildKey args)
        = some (PwConnector.get st now args fr).result) := by
  constructor
  · intro st now args fr r h
    exact pwGet_memo_hit st now args fr r h
  · intro st now args fr h
    rw [pwGet_memo_miss st now args fr h]
    exact ⟨rfl, rfl, lookup_mapSet_self _ _ _⟩

/-- Witness for C3's amended claim: replay of a memoized key, and a fresh
lookup (with memoization) on an unseen key. -/
theorem loader_memoizes_per_instance_witness :
    (([(buildKey [], Except.ok "old")] : List (String × Except String String)).lookup
        (buildKey []) = some (.ok "old")) ∧
    (PwConnector.get ⟨⟨[], [], []⟩, [(buildKey [], .ok "old")]⟩ 5 [] (.error "down")
      = ⟨.ok "old", ⟨⟨[], [], []⟩, [(buildKey [], .ok "old")]⟩,
          lodashDefaults [] qsDefaults, false, false⟩) ∧
    (([] : List (String × Except String String)).lookup (buildKey []) = none) ∧
    ((PwConnector.get ⟨⟨[], [], []⟩, []⟩ 5 [] (.error "down")).result
        = (getCacheIfNeeded ⟨[], [], []⟩ 5 (buildKey []) (.error "down")).result ∧
      (PwConnector.get ⟨⟨[], [], []⟩, []⟩ 5 [] (.error "down")).didLookupCache = true ∧
      (PwConnector.get ⟨⟨[], [], []⟩, []⟩ 5 [] (.error "down")).state.memo.lookup
          (buildKey [])
        = some (PwConnector.get ⟨⟨[], [], []⟩, []⟩ 5 [] (.error "down")).result) :=
  ⟨by decide,
   loader_memoizes_per_instance.1 ⟨⟨[], [], []⟩, [(buildKey [], .ok "old")]⟩ 5 []
     (.error "down") (.ok "old") (by decide),
   rfl,
   loader_memoizes_per_instance.2 ⟨⟨[], [], []⟩, []⟩ 5 [] (.error "down") rfl⟩

/-- C4 (counterexample): two logically-equal parameter sets — the same pairs,
permuted, with identical lookups on every key they bind — serialize to
different cache keys, because `querystring.encode` follows the object's
insertion order. -/
theorem equal_params_different_keys :
    List.Perm [("p", "1"), ("q", "2")] [("q", "2"), ("p", "1")] ∧
    (([("p", "1"), ("q", "2")] : List (String × String)).lookup "p"
        = ([("q", "2"), ("p", "1")] : List (String × String)).lookup "p") ∧
    (([("p", "1"), ("q", "2")] : List (String × String)).lookup "q"
        = ([("q", "2"), ("p", "1")] : List (String × String)).lookup "q") ∧
    buildKey [("p", "1"), ("q", "2")] ≠ buildKey [("q", "2"), ("p", "1")] := by
  exact ⟨by decide, by decide, by decide, by decide⟩

/-- C4 (amended): the cache key is the fixed base URL, `?`, and the
query-string serialization of the parameters merged with the defaults
`{action: "ask", format: "json"}`, caller-provided values taking precedence;
serialization is insertion-order-dependent, so equal-as-mappings parameter
sets are only guaranteed the same key when enumerated in the same order. -/
theorem cache_key_construction (args : List (String × String)) :
    buildKey args = ROOT_URL ++ "?" ++ qsEncode (lodashDefaults args qsDefaults) ∧
    (lodashDefaults args qsDefaults).lookup "action"
      = some ((args.lookup "action").getD "ask") ∧
    (lodashDefaults args qsDefaults).lookup "format"
      = some ((args.lookup "format").getD "json") ∧
    (∀ k v, args.lookup k = some v →
      (lodashDefaults args qsDefaults).lookup k = some v) :=
  ⟨rfl, lodashDefaults_lookup_action args, lodashDefaults_lookup_format args,
   fun _ _ h => lookup_append_some _ _ _ _ h⟩

/-- Witness for C4's amended claim: caller-provided `action` wins over the
default, the missing `format` is filled in, and other keys survive. -/
theorem cache_key_construction_witness :
    (buildKey [("action", "query"), ("x", "1")]
      = ROOT_URL ++ "?"
          ++ qsEncode (lodashDefaults [("action", "query"), ("x", "1")] qsDefaults)) ∧
    ((lodashDefaults [("action", "query"), ("x", "1")] qsDefaults).lookup "action"
      = some ((([("action", "query"), ("x", "1")] :
          List (String × String)).lookup "action").getD "ask")) ∧
    ((lodashDefaults [("action", "query"), ("x", "1")] qsDefaults).lookup "format"
      = some ((([("action", "query"), ("x", "1")] :
          List (String × String)).lookup "format").getD "json")) ∧
    (([("action", "query"), ("x", "1")] : List (String × String)).lookup "x"
        = some "1") ∧
    ((lodashDefaults [("action", "query"), ("x", "1")] qsDefaults).lookup "x"
      = some "1") :=
  ⟨(cache_key_construction [("action", "query"), ("x", "1")]).1,
   (cache_key_construction [("action", "query"), ("x", "1")]).2.1,
   (cache_key_construction [("action", "query"), ("x", "1")]).2.2.1,
   by decide,
   (cache_key_construction [("action", "query"), ("x", "1")]).2.2.2 "x" "1" (by decide)⟩

/-- C10: `get(args)` mutates the caller's `args` object in place through
`_.defaults(args, qsDefaults)`: after any call — memoized or not — the args
mapping binds `action` and `format` (filled with `"ask"`/`"json"` exactly when
the caller omitted them), keeps every caller-provided binding unchanged, and
gains no other keys. -/
theorem get_mutates_caller_args (st : PwState) (now : Nat)
    (args : List (String × String)) (fr : Except String Response) :
    (PwConnector.get st now args fr).mutatedArgs = lodashDefaults args qsDefaults ∧
    ((PwConnector.get st now args fr).mutatedArgs.lookup "action"
      = some ((args.lookup "action").getD "ask")) ∧
    ((PwConnector.get st now args fr).mutatedArgs.lookup "format"
      = some ((args.lookup "format").getD "json")) ∧
    (∀ k v, args.lookup k = some v →
      (PwConnector.get st now args fr).mutatedArgs.lookup k = some v) ∧
    (∀ k, k ≠ "action" → k ≠ "format" →
      (PwConnector.get st now args fr).mutatedArgs.lookup k = args.lookup k) := by
  rw [pwGet_mutatedArgs st now args fr]
  exact ⟨rfl, lodashDefaults_lookup_action args, lodashDefaults_lookup_format args,
    fun _ _ h => lookup_append_some _ _ _ _ h,
    fun k h1 h2 => lodashDefaults_lookup_other args k h1 h2⟩

/-- Witness for C10 at a concrete call: `args = [("action", "query")]` comes
back with its own `action`, a new `format ↦ "json"`, and nothing else new. -/
theorem get_mutates_caller_args_witness :
    ((PwConnector.get ⟨⟨[], [], []⟩, []⟩ 7 [("action", "query")]
        (.ok ⟨200, "b"⟩)).mutatedArgs
      = lodashDefaults [("action", "query")] qsDefaults) ∧
    ((PwConnector.get ⟨⟨[], [], []⟩, []⟩ 7 [("action", "query")]
        (.ok ⟨200, "b"⟩)).mutatedArgs.lookup "action"
      = some ((([("action", "query")] :
          List (String × String)).lookup "action").getD "ask")) ∧
    ((PwConnector.get ⟨⟨[], [], []⟩, []⟩ 7 [("action", "query")]
        (.ok ⟨200, "b"⟩)).mutatedArgs.lookup "format"
      = some ((([("action", "query")] :
          List (String × String)).lookup "format").getD "json")) ∧
    (([("action", "query")] : List (String × String)).lookup "action"
        = some "query") ∧
    ((PwConnector.get ⟨⟨[], [], []⟩, []⟩ 7 [("action", "query")]
        (.ok ⟨200, "b"⟩)).mutatedArgs.lookup "action" = some "query") ∧
    ((PwConnector.get ⟨⟨[], [], []⟩, []⟩ 7 [("action", "query")]
        (.ok ⟨200, "b"⟩)).mutatedArgs.lookup "zzz"
      = ([("action", "query")] : List (String × String)).lookup "zzz") :=
  ⟨(get_mutates_caller_args ⟨⟨[], [], []⟩, []⟩ 7 [("action", "query")] (.ok ⟨200, "b"⟩)).1,
   (get_mutates_caller_args ⟨⟨[], [], []⟩, []⟩ 7 [("action", "query")] (.ok ⟨200, "b"⟩)).2.1,
   (get_mutates_caller_args ⟨⟨[], [], []⟩, []⟩ 7 [("action", "query")] (.ok ⟨200, "b"⟩)).2.2.1,
   by decide,
   (get_mutates_caller_args ⟨⟨[], [], []⟩, []⟩ 7 [("action", "query")]
     (.ok ⟨200, "b"⟩)).2.2.2.1 "action" "query" (by decide),
   (get_mutates_caller_args ⟨⟨[], [], []⟩, []⟩ 7 [("action", "query")]
     (.ok ⟨200, "b"⟩)).2.2.2.2 "zzz" (by decide) (by decide)⟩

end Bifrost
